import Mathlib

/-
Verification of the resumable batch-scraping pipeline in
`scripts/scrape_courses.py` (class `OptimizedGolfScraper` and the
module-level controller `process_all_cities_safely`).

The Python code is shallowly embedded: pure helpers become Lean
functions on `List Char` / `List String`; the stateful controller loop
becomes explicit state passing over a cursor and an accumulator; file
writes become explicit transitions on a small file-system state; the
network is a parameter `net : String → Option HttpResponse` so that one
run is deterministic in the recorded network behaviour.  Regex
substitutions are implemented as the left-to-right, non-overlapping
scans that `re.sub` performs, specialised to the three concrete
patterns used by `_clean_address`.  Recursions use explicit fuel
(always instantiated with the input length, which bounds the number of
scan steps) so that every definition evaluates by kernel reduction.
-/

namespace GolfScraper

/-! ## Data model

`City` mirrors one entry of `all_city_links.json` (`name`, `link`,
`destination`); `CourseDetail` is what `extract_course_details` returns
(`course_name`, `address`); `Course` is a detail enriched by
`process_single_city` with `city`, `destination`, `city_url`. -/

structure City where
  name : String
  link : String
  destination : String
deriving DecidableEq

structure CourseDetail where
  course_name : String
  address : String
deriving DecidableEq

structure Course where
  course_name : String
  address : String
  city : String
  destination : String
  city_url : String
deriving DecidableEq

/-! ## Fetch client (`OptimizedGolfScraper.get_html` and `_create_session`) -/

structure HttpResponse where
  status : Nat
  text : String
deriving DecidableEq

/-- Embedding of `get_html`: `self.session.get` either raises a
`requests.RequestException` (modelled as `net url = none`) or returns a
response; `response.raise_for_status()` raises for any status in
[400, 600); the `except requests.RequestException` handler prints and
returns `None`.  The caller therefore receives `some response.text` or
the bare sentinel `none`. -/
def get_html (net : String → Option HttpResponse) (url : String) : Option String :=
  match net url with
  | none => none
  | some r => if 400 ≤ r.status ∧ r.status < 600 then none else some r.text

/-- Status list from `_create_session`:
`Retry(total=3, backoff_factor=1, status_forcelist=[429, 500, 502, 503, 504])`. -/
def status_forcelist : List Nat := [429, 500, 502, 503, 504]

/-- One observed network event for one attempt of a single GET:
either an HTTP status, or a network-level failure
(connect/read error, timeout). -/
inductive HttpEvent where
  | status (code : Nat)
  | netFail
deriving DecidableEq

/-- urllib3 retries an attempt when the response status is in the
configured `status_forcelist`, and retries network-level failures
(connect/read errors count against `total` as well). -/
def retryableEvent : HttpEvent → Bool
  | HttpEvent.status code => status_forcelist.contains code
  | HttpEvent.netFail => true

inductive FetchOutcome where
  | response (code : Nat)
  | exhausted
deriving DecidableEq

/-- Embedding of the urllib3 `Retry` loop driving one `session.get`.
`retriesLeft` is the remaining `total` budget: the initial request is
always issued and does not consume it; each retry of a retryable event
consumes one unit; a retryable event with no budget left raises
`MaxRetryError` (`exhausted`).  A non-retryable status is returned to
requests without further attempts.  The returned `Nat` counts the
attempts (HTTP requests) actually made.  `events` supplies the network
behaviour of successive attempts. -/
def runWithRetries : Nat → List HttpEvent → Nat × FetchOutcome
  | _, [] => (0, FetchOutcome.exhausted)
  | retriesLeft, e :: rest =>
    if retryableEvent e then
      match retriesLeft with
      | 0 => (1, FetchOutcome.exhausted)
      | rl + 1 =>
        let r := runWithRetries rl rest
        (r.1 + 1, r.2)
    else
      match e with
      | HttpEvent.status code => (1, FetchOutcome.response code)
      | HttpEvent.netFail => (1, FetchOutcome.exhausted)

/-- The session is built with `Retry(total=3)`. -/
def sessionTotalRetries : Nat := 3

/-- Number of HTTP attempts one `session.get` makes when the network
behaves as `events`. -/
def fetchAttempts (events : List HttpEvent) : Nat :=
  (runWithRetries sessionTotalRetries events).1

/-- urllib3 `Retry.get_backoff_time` before the n-th retry (n ≥ 1)
with `backoff_factor = factor`: the library returns 0 while
`consecutive_errors_len <= 1`, i.e. there is no sleep before the first
retry, and from the second retry on it sleeps
`factor * 2 ^ (n - 1)` — the documented sequence for factor 1 is
0, 2, 4, … time units. -/
def backoffTime (factor n : Nat) : Nat :=
  if n ≤ 1 then 0 else factor * 2 ^ (n - 1)

/-! ## Address cleaning (`_clean_address`)

The Python code is
```
cleaned_html = re.sub(r'<br\s*/?>', ', ', address_html, flags=re.IGNORECASE)
address = BeautifulSoup(cleaned_html, 'lxml').get_text(strip=True)
address = re.sub(r',\s*,', ',', address)
address = re.sub(r'\s*,\s*', ', ', address)
```
Each `re.sub` is embedded as the left-to-right scan it performs:
at each position try the pattern; on a match emit the replacement and
resume after the match; otherwise emit the character and advance one. -/

/-- Python regex `\s` over the claim-relevant ASCII range. -/
def isPyWs (c : Char) : Bool :=
  c = ' ' || c = '\t' || c = '\n' || c = '\r' || c = '\x0b' || c = '\x0c'

def isBChar (c : Char) : Bool := c = 'b' || c = 'B'

def isRChar (c : Char) : Bool := c = 'r' || c = 'R'

/-- Scan for `re.sub(r'<br\s*/?>', ', ', s, flags=re.IGNORECASE)`:
a match is `<`, `b`/`B`, `r`/`R`, any whitespace, an optional `/`,
then `>`; it is replaced by a comma and a space. -/
def replaceBrAux : Nat → List Char → List Char
  | 0, cs => cs
  | fuel + 1, cs =>
    match cs with
    | [] => []
    | '<' :: c1 :: c2 :: rest =>
      if isBChar c1 && isRChar c2 then
        match rest.dropWhile isPyWs with
        | '/' :: '>' :: t => ',' :: ' ' :: replaceBrAux fuel t
        | '>' :: t => ',' :: ' ' :: replaceBrAux fuel t
        | _ => '<' :: replaceBrAux fuel (c1 :: c2 :: rest)
      else '<' :: replaceBrAux fuel (c1 :: c2 :: rest)
    | c :: rest => c :: replaceBrAux fuel rest

def replaceBr (cs : List Char) : List Char := replaceBrAux cs.length cs

/-- Tag stripping part of `BeautifulSoup(...).get_text`: characters
between `<` and `>` are markup and contribute no text. -/
def getTextAux : Bool → List Char → List Char
  | _, [] => []
  | true, c :: rest => if c = '>' then getTextAux false rest else getTextAux true rest
  | false, c :: rest => if c = '<' then getTextAux true rest else c :: getTextAux false rest

/-- Python `str.strip()`: drop whitespace at both ends. -/
def pyStrip (cs : List Char) : List Char :=
  ((cs.dropWhile isPyWs).reverse.dropWhile isPyWs).reverse

/-- `BeautifulSoup(s, 'lxml').get_text(strip=True)` for the flat
(single text segment) content `_clean_address` feeds it: markup
removed, surrounding whitespace stripped. -/
def getText (cs : List Char) : List Char := pyStrip (getTextAux false cs)

/-- Scan for `re.sub(r',\s*,', ',', s)`: a comma, any whitespace and a
second comma are replaced by one comma; scanning resumes after the
match, so the replacement comma is not reconsidered. -/
def subCommaPairAux : Nat → List Char → List Char
  | 0, cs => cs
  | _ + 1, [] => []
  | fuel + 1, c :: rest =>
    if c = ',' then
      match rest.dropWhile isPyWs with
      | ',' :: t => ',' :: subCommaPairAux fuel t
      | _ => ',' :: subCommaPairAux fuel rest
    else c :: subCommaPairAux fuel rest

/-- Scan for `re.sub(r'\s*,\s*', ', ', s)`: maximal whitespace, a
comma and maximal whitespace are replaced by a comma and one space.
A position matches exactly when its maximal whitespace run is followed
by a comma (a shorter run would be followed by whitespace, never by
the required comma, so greedy matching needs no backtracking). -/
def subCommaSpaceAux : Nat → List Char → List Char
  | 0, cs => cs
  | _ + 1, [] => []
  | fuel + 1, c :: rest =>
    if c = ',' then
      ',' :: ' ' :: subCommaSpaceAux fuel (rest.dropWhile isPyWs)
    else if isPyWs c then
      match (c :: rest).dropWhile isPyWs with
      | ',' :: t => ',' :: ' ' :: subCommaSpaceAux fuel (t.dropWhile isPyWs)
      | _ => c :: subCommaSpaceAux fuel rest
    else c :: subCommaSpaceAux fuel rest

/-- Embedding of `_clean_address`. -/
def clean_address (s : String) : String :=
  let step1 := replaceBr s.toList
  let step2 := getText step1
  let step3 := subCommaPairAux step2.length step2
  let step4 := subCommaSpaceAux step3.length step3
  String.mk step4

/-! ## Batch worker (`process_city_batch`) -/

/-- Embedding of the inner `process_single_city` closure: an empty link
contributes nothing (`if not city_link`); a failed or empty fetch
(`if not city_html`, which is true for `None` and for `""`) contributes
nothing; otherwise every extracted detail is enriched with the city
metadata.  `extract` stands for `extract_course_details`, the
page-format-specific extractor. -/
def process_single_city (net : String → Option HttpResponse)
    (extract : String → List CourseDetail) (c : City) : List Course :=
  if c.link = "" then []
  else
    match get_html net c.link with
    | none => []
    | some html =>
      if html = "" then []
      else
        (extract html).map (fun d =>
          { course_name := d.course_name, address := d.address,
            city := c.name, destination := c.destination, city_url := c.link })

/-- Embedding of `process_city_batch`: every city of the batch is
processed and all results are concatenated.  The thread pool's
`as_completed` order is immaterial to the record set; the embedding
fixes input order. -/
def process_city_batch (net : String → Option HttpResponse)
    (extract : String → List CourseDetail) (batch : List City) : List Course :=
  batch.flatMap (process_single_city net extract)

/-! ## Pipeline controller (`process_all_cities_safely`)

The batch loop is
```
for batch_start in range(resume_from, total_cities, batch_size):
    batch_end = min(batch_start + batch_size, total_cities)
    batch_cities = all_city_links[batch_start:batch_end]
    batch_courses = scraper.process_city_batch(batch_cities)
    all_courses.extend(batch_courses)
    processed_cities = batch_end
    if processed_cities % checkpoint_interval == 0 or batch_end == total_cities:
        ... write output file, write checkpoint file ...
```
It is embedded as explicit recursion on a cursor and an accumulator,
generic in the per-item function `f` (which `process_all_cities_safely`
instantiates with `process_single_city`, so one batch contributes
`process_city_batch net extract slice = slice.flatMap (process_single_city net extract)`).
Fuel is the input length: each loop iteration advances the cursor by at
least one while it is below the length. -/

/-- One run of the batch loop from cursor `c` with accumulator `acc`:
the final accumulator when the loop exits normally. -/
def runBatchesAux {α β : Type} (f : α → List β) (cities : List α) (bs : Nat) :
    Nat → Nat → List β → List β
  | 0, _, acc => acc
  | fuel + 1, c, acc =>
    if 0 < bs ∧ c < cities.length then
      runBatchesAux f cities bs fuel (min (c + bs) cities.length)
        (acc ++ ((cities.drop c).take bs).flatMap f)
    else acc

def runBatches {α β : Type} (f : α → List β) (cities : List α) (bs c : Nat)
    (acc : List β) : List β :=
  runBatchesAux f cities bs cities.length c acc

/-- One iteration of the batch loop as a transition on
`(processed_cities, all_courses)`; used to name the state reached after
`k` completed batches. -/
def batchStep {α β : Type} (f : α → List β) (cities : List α) (bs : Nat)
    (s : Nat × List β) : Nat × List β :=
  if s.1 < cities.length ∧ 0 < bs then
    (min (s.1 + bs) cities.length, s.2 ++ ((cities.drop s.1).take bs).flatMap f)
  else s

/-- Controller state `(processed_cities, all_courses)` after the first
`k` batches of a fresh run.  Interrupting with Ctrl-C right after batch
`k` runs the `except KeyboardInterrupt` handler, which writes
`all_courses` to the output file and
`{'last_processed': processed_cities, ..., 'interrupted': True}` to the
checkpoint file. -/
def interruptedState {α β : Type} (f : α → List β) (cities : List α) (bs k : Nat) :
    Nat × List β :=
  (batchStep f cities bs)^[k] (0, [])

/-- Contents of an artifact file as the resume code classifies it:
absent, present but unparseable, or parseed to a value. -/
inductive FileVal (α : Type) where
  | missing : FileVal α
  | corrupt : FileVal α
  | good : α → FileVal α
deriving DecidableEq

/-- Embedding of the resume logic at the top of
`process_all_cities_safely`, given the cursor recovered from the
checkpoint file (`resume_from`, with missing/corrupt checkpoint already
mapped to `0`) and the state of the output file:
```
if resume_from > 0 and os.path.exists(output_file):
    try: all_courses = json.load(f)
    except: all_courses = []; resume_from = 0
```
A missing output file fails the `os.path.exists` guard, so the cursor
is kept while the accumulator stays empty; only a present-but-corrupt
output file resets the cursor to 0. -/
def loadResume {β : Type} (resume_from : Nat) (output : FileVal (List β)) :
    Nat × List β :=
  if 0 < resume_from then
    match output with
    | FileVal.missing => (resume_from, [])
    | FileVal.corrupt => (0, [])
    | FileVal.good recs => (resume_from, recs)
  else (resume_from, [])

/-- Final accumulator of a second invocation that resumes from the
artifacts written when the first invocation was interrupted right after
batch `k`. -/
def resumedRun {α β : Type} (f : α → List β) (cities : List α) (bs k : Nat) :
    List β :=
  let s := interruptedState f cities bs k
  let r := loadResume s.1 (FileVal.good s.2)
  runBatches f cities bs r.1 r.2

/-- The successive slices `all_city_links[batch_start:batch_end]`
handed to `process_city_batch` by a run starting at cursor `c`. -/
def batchSlicesAux {α : Type} (cities : List α) (bs : Nat) :
    Nat → Nat → List (List α)
  | 0, _ => []
  | fuel + 1, c =>
    if 0 < bs ∧ c < cities.length then
      ((cities.drop c).take bs) :: batchSlicesAux cities bs fuel (min (c + bs) cities.length)
    else []

def batchSlices {α : Type} (cities : List α) (bs c : Nat) : List (List α) :=
  batchSlicesAux cities bs cities.length c

/-- The successive values of `processed_cities` (= `batch_end`) over a
run on an input of length `n` starting at cursor `c`. -/
def batchCursorsAux (n bs : Nat) : Nat → Nat → List Nat
  | 0, _ => []
  | fuel + 1, c =>
    if 0 < bs ∧ c < n then
      (min (c + bs) n) :: batchCursorsAux n bs fuel (min (c + bs) n)
    else []

def batchCursors (n bs c : Nat) : List Nat :=
  batchCursorsAux n bs n c

/-- The checkpoint condition of the loop body:
`processed_cities % checkpoint_interval == 0 or batch_end == total_cities`
(at that point `processed_cities == batch_end`). -/
def checkpointTrigger (processed interval total : Nat) : Bool :=
  processed % interval == 0 || processed == total

/-- Cursor values at which a run actually writes a checkpoint. -/
def checkpointedCursors (n bs interval c : Nat) : List Nat :=
  (batchCursors n bs c).filter (fun p => checkpointTrigger p interval n)

/-- Modelled from the spec: the spec-side trigger condition — the
cursor has crossed (or landed exactly on) some positive multiple of
`interval` since the previous cursor value `prev`. -/
def crossedMultiple (interval prev cur : Nat) : Bool :=
  (List.range' 1 cur).any (fun m => decide (prev < interval * m) && decide (interval * m ≤ cur))

/-! ## Artifact files and the checkpoint write -/

/-- Checkpoint file contents (`timestamp` omitted: it carries no
resume-relevant information). -/
structure CheckpointData where
  last_processed : Nat
  total_courses : Nat
deriving DecidableEq

/-- The two artifact files of a run. -/
structure FS where
  output : FileVal (List Course)
  ckpt : FileVal CheckpointData
deriving DecidableEq

/-- Primitive file-system steps of the checkpoint block.  Python's
`open(path, 'w')` truncates the existing file at the moment the handle
is opened (leaving it unparseable as JSON until the dump completes),
and `json.dump` then writes the new contents in place. -/
inductive WriteOp where
  | truncOutput
  | putOutput (recs : List Course)
  | truncCkpt
  | putCkpt (ck : CheckpointData)
deriving DecidableEq

def applyOp (fs : FS) : WriteOp → FS
  | WriteOp.truncOutput => { fs with output := FileVal.corrupt }
  | WriteOp.putOutput recs => { fs with output := FileVal.good recs }
  | WriteOp.truncCkpt => { fs with ckpt := FileVal.corrupt }
  | WriteOp.putCkpt ck => { fs with ckpt := FileVal.good ck }

/-- The file-system steps performed by the checkpoint block of
`process_all_cities_safely`: truncate and rewrite the output file in
place, then truncate and rewrite the checkpoint file in place. -/
def saveCheckpointOps (recs : List Course) (ck : CheckpointData) : List WriteOp :=
  [WriteOp.truncOutput, WriteOp.putOutput recs, WriteOp.truncCkpt, WriteOp.putCkpt ck]

/-- State of the artifacts if the process dies after the first `j`
primitive steps of `ops`. -/
def crashAfter (fs : FS) (ops : List WriteOp) (j : Nat) : FS :=
  (ops.take j).foldl applyOp fs

/-- Mutual consistency of the published artifacts: both parse and the
checkpoint's course count matches the output's record count. -/
def consistentFS (fs : FS) : Bool :=
  match fs.output, fs.ckpt with
  | FileVal.good recs, FileVal.good ck => ck.total_courses == recs.length
  | _, _ => false

/-! ## The `except Exception` path -/

/-- How control leaves `process_all_cities_safely`. -/
inductive RunOutcome where
  | returned (n : Nat)
  | raisedOriginal
  | raisedSecondary
deriving DecidableEq

/-- Embedding of the `except Exception as e` handler: it prints, writes
`all_courses` to the output file (in place), and falls off the handler
with `return len(all_courses)` — it writes no checkpoint file and does
not re-raise `e`.  If the output write itself raises (`writeOk =
false`), that new exception propagates out of the handler in place of
the original one, leaving the half-truncated output behind. -/
def onUnexpectedError (writeOk : Bool) (fs : FS) (acc : List Course) :
    FS × RunOutcome :=
  if writeOk then
    ({ fs with output := FileVal.good acc }, RunOutcome.returned acc.length)
  else
    ({ fs with output := FileVal.corrupt }, RunOutcome.raisedSecondary)

/-! ## Slice bookkeeping lemmas -/

theorem drop_min_add {α : Type} (cities : List α) (c bs : Nat) :
    cities.drop (min (c + bs) cities.length) = (cities.drop c).drop bs := by
  rcases Nat.le_total (c + bs) cities.length with hle | hle
  · rw [Nat.min_eq_left hle, List.drop_drop]
  · rw [Nat.min_eq_right hle, List.drop_eq_nil_of_le le_rfl,
      List.drop_eq_nil_of_le (by rw [List.length_drop]; omega)]

theorem take_min_add {α : Type} (cities : List α) (c bs : Nat) :
    cities.take (min (c + bs) cities.length)
      = cities.take c ++ (cities.drop c).take bs := by
  rcases Nat.le_total (c + bs) cities.length with hle | hle
  · rw [Nat.min_eq_left hle, List.take_add]
  · have h1 : cities.take cities.length = cities := List.take_of_length_le le_rfl
    have h2 : (cities.drop c).take bs = cities.drop c :=
      List.take_of_length_le (by rw [List.length_drop]; omega)
    rw [Nat.min_eq_right hle, h1, h2, List.take_append_drop]

/-- Any sufficiently fuelled run of the batch loop ends with the
accumulator extended by the records of every remaining item, in input
order. -/
theorem runBatchesAux_eq {α β : Type} (f : α → List β) (cities : List α)
    (bs : Nat) (hbs : 0 < bs) :
    ∀ (fuel c : Nat) (acc : List β), cities.length - c ≤ fuel →
      runBatchesAux f cities bs fuel c acc = acc ++ (cities.drop c).flatMap f := by
  intro fuel
  induction fuel with
  | zero =>
    intro c acc h
    have hc : cities.length ≤ c := by omega
    simp [runBatchesAux, List.drop_eq_nil_of_le hc]
  | succ fuel ih =>
    intro c acc h
    by_cases hc : c < cities.length
    · simp only [runBatchesAux]
      rw [if_pos ⟨hbs, hc⟩, ih (min (c + bs) cities.length) _ (by omega),
        List.append_assoc]
      congr 1
      rw [drop_min_add, ← List.flatMap_append, List.take_append_drop]
    · have hc' : cities.length ≤ c := by omega
      simp [runBatchesAux, hc, List.drop_eq_nil_of_le hc']

theorem runBatches_flatMap {α β : Type} (f : α → List β) (cities : List α)
    (bs : Nat) (hbs : 0 < bs) (c : Nat) (acc : List β) :
    runBatches f cities bs c acc = acc ++ (cities.drop c).flatMap f :=
  runBatchesAux_eq f cities bs hbs cities.length c acc (by omega)

/-- After `k` batches the cursor never exceeds the input length and the
accumulator holds exactly the records of the first `cursor` items. -/
theorem interruptedState_spec {α β : Type} (f : α → List β) (cities : List α)
    (bs k : Nat) :
    (interruptedState f cities bs k).2
        = (cities.take (interruptedState f cities bs k).1).flatMap f
      ∧ (interruptedState f cities bs k).1 ≤ cities.length := by
  induction k with
  | zero => simp [interruptedState]
  | succ k ih =>
    obtain ⟨h1, h2⟩ := ih
    unfold interruptedState at h1 h2 ⊢
    rw [Function.iterate_succ_apply']
    set s := (batchStep f cities bs)^[k] ((0 : Nat), ([] : List β)) with hs
    unfold batchStep
    by_cases hc : s.1 < cities.length ∧ 0 < bs
    · rw [if_pos hc]
      refine ⟨?_, Nat.min_le_right _ _⟩
      show s.2 ++ ((cities.drop s.1).take bs).flatMap f
          = (cities.take (min (s.1 + bs) cities.length)).flatMap f
      rw [h1, take_min_add, List.flatMap_append]
    · rw [if_neg hc]
      exact ⟨h1, h2⟩

/-! ## Claim C1 -/

/-- Resuming from a saved state whose accumulator matches its cursor
reproduces the uninterrupted run. -/
theorem resume_from_state {α β : Type} (f : α → List β) (cities : List α)
    (bs : Nat) (hbs : 0 < bs) (s : Nat × List β)
    (h1 : s.2 = (cities.take s.1).flatMap f) :
    runBatches f cities bs (loadResume s.1 (FileVal.good s.2)).1
        (loadResume s.1 (FileVal.good s.2)).2
      = runBatches f cities bs 0 [] := by
  obtain ⟨c, acc⟩ := s
  simp only at h1
  show runBatches f cities bs (loadResume c (FileVal.good acc)).1
      (loadResume c (FileVal.good acc)).2
    = runBatches f cities bs 0 []
  by_cases h0 : 0 < c
  · have hload : loadResume c (FileVal.good acc) = (c, acc) := by
      simp [loadResume, h0]
    rw [hload, runBatches_flatMap f cities bs hbs,
      runBatches_flatMap f cities bs hbs, h1, ← List.flatMap_append,
      List.take_append_drop, List.drop_zero, List.nil_append]
  · have hz : c = 0 := by omega
    have hload : loadResume c (FileVal.good acc) = (0, []) := by
      simp [loadResume, hz]
    rw [hload]

/-- C1 (confirmed): Idempotent resume.  Running the batch pipeline to
completion in one uninterrupted pass produces the same final
accumulator — literally the same list, hence the same order-insensitive
set of records — as running it, interrupting right after batch `k`
(whose `KeyboardInterrupt` handler writes the accumulator to the output
file and the cursor to the checkpoint file), and then resuming from
those artifacts to completion.  This holds for every input list, every
positive batch size and every `k`. -/
theorem c1_idempotent_resume {α β : Type} (f : α → List β) (cities : List α)
    (bs k : Nat) (hbs : 0 < bs) :
    resumedRun f cities bs k = runBatches f cities bs 0 [] ∧
    ∀ rec, rec ∈ resumedRun f cities bs k ↔ rec ∈ runBatches f cities bs 0 [] := by
  obtain ⟨h1, _h2⟩ := interruptedState_spec f cities bs k
  have eq0 : resumedRun f cities bs k
      = runBatches f cities bs
          (loadResume (interruptedState f cities bs k).1
            (FileVal.good (interruptedState f cities bs k).2)).1
          (loadResume (interruptedState f cities bs k).1
            (FileVal.good (interruptedState f cities bs k).2)).2 := rfl
  have main : resumedRun f cities bs k = runBatches f cities bs 0 [] := by
    rw [eq0]
    exact resume_from_state f cities bs hbs (interruptedState f cities bs k) h1
  exact ⟨main, fun rec => by rw [main]⟩

theorem c1_idempotent_resume_witness :
    0 < 2 ∧
    (resumedRun (fun n => [n, n + 10]) [1, 2, 3] 2 1
        = runBatches (fun n => [n, n + 10]) [1, 2, 3] 2 0 [] ∧
      ∀ rec, rec ∈ resumedRun (fun n => [n, n + 10]) [1, 2, 3] 2 1
        ↔ rec ∈ runBatches (fun n => [n, n + 10]) [1, 2, 3] 2 0 []) :=
  ⟨by decide, c1_idempotent_resume (fun n => [n, n + 10]) [1, 2, 3] 2 1 (by decide)⟩

/-! ## Claim C3 -/

theorem batchSlicesAux_flatten {α : Type} (cities : List α) (bs : Nat)
    (hbs : 0 < bs) :
    ∀ (fuel c : Nat), cities.length - c ≤ fuel →
      (batchSlicesAux cities bs fuel c).flatten = cities.drop c := by
  intro fuel
  induction fuel with
  | zero =>
    intro c h
    have hc : cities.length ≤ c := by omega
    simp [batchSlicesAux, List.drop_eq_nil_of_le hc]
  | succ fuel ih =>
    intro c h
    by_cases hc : c < cities.length
    · simp only [batchSlicesAux]
      rw [if_pos ⟨hbs, hc⟩, List.flatten_cons, ih _ (by omega), drop_min_add,
        List.take_append_drop]
    · have hc' : cities.length ≤ c := by omega
      simp [batchSlicesAux, hc, List.drop_eq_nil_of_le hc']

theorem batchCursorsAux_chain (n bs : Nat) :
    ∀ (fuel c : Nat), List.Chain' (· ≤ ·) (c :: batchCursorsAux n bs fuel c) := by
  intro fuel
  induction fuel with
  | zero => intro c; simp [batchCursorsAux]
  | succ fuel ih =>
    intro c
    simp only [batchCursorsAux]
    by_cases hc : 0 < bs ∧ c < n
    · rw [if_pos hc, List.chain'_cons]
      exact ⟨by omega, ih _⟩
    · rw [if_neg hc]
      simp

/-- C3 (confirmed): Exactly-once contiguous batching.  For every input
list and resume cursor, the slices handed to the worker pool are the
contiguous `[batch_start, batch_end)` windows, and concatenating them
in order gives back exactly the remaining input `cities.drop c`: every
remaining item is handed to the pool exactly once within the run, none
twice.  The successive `processed_cities` cursors (which are what each
checkpoint records) are monotonically non-decreasing. -/
theorem c3_exactly_once_contiguous_batching {α : Type} (cities : List α)
    (bs c : Nat) (hbs : 0 < bs) :
    (batchSlices cities bs c).flatten = cities.drop c ∧
    List.Chain' (· ≤ ·) (c :: batchCursors cities.length bs c) :=
  ⟨batchSlicesAux_flatten cities bs hbs cities.length c (by omega),
   batchCursorsAux_chain cities.length bs cities.length c⟩

theorem c3_exactly_once_contiguous_batching_witness :
    0 < 2 ∧
    ((batchSlices [10, 11, 12, 13, 14] 2 1).flatten
        = List.drop 1 [10, 11, 12, 13, 14] ∧
      List.Chain' (· ≤ ·)
        (1 :: batchCursors (List.length [10, 11, 12, 13, 14]) 2 1)) :=
  ⟨by decide, c3_exactly_once_contiguous_batching [10, 11, 12, 13, 14] 2 1 (by decide)⟩

/-! ## Claim C10 -/

/-- C10 (confirmed): Resume with a missing output artifact.  When a
well-formed checkpoint recovers a cursor `r > 0` but the output file
does not exist, the `os.path.exists` guard keeps the cursor at `r`
while the accumulator starts empty, so the run completes with exactly
the records of the items from `r` on — the records of the first `r`
items are absent from the final output, rather than the run restarting
from cursor 0. -/
theorem c10_resume_missing_output {α β : Type} (f : α → List β)
    (cities : List α) (bs r : Nat) (hbs : 0 < bs) (hr : 0 < r) :
    (loadResume r (FileVal.missing : FileVal (List β))).1 = r ∧
    (loadResume r (FileVal.missing : FileVal (List β))).2 = [] ∧
    runBatches f cities bs (loadResume r (FileVal.missing : FileVal (List β))).1
        (loadResume r (FileVal.missing : FileVal (List β))).2
      = (cities.drop r).flatMap f := by
  have hload : loadResume r (FileVal.missing : FileVal (List β)) = (r, []) := by
    simp [loadResume, hr]
  refine ⟨by rw [hload], by rw [hload], ?_⟩
  rw [hload, runBatches_flatMap f cities bs hbs]
  simp

theorem c10_resume_missing_output_witness :
    0 < 2 ∧ 0 < 2 ∧
    ((loadResume 2 (FileVal.missing : FileVal (List Nat))).1 = 2 ∧
      (loadResume 2 (FileVal.missing : FileVal (List Nat))).2 = [] ∧
      runBatches (fun n => [n]) [5, 6, 7, 8] 2
          (loadResume 2 (FileVal.missing : FileVal (List Nat))).1
          (loadResume 2 (FileVal.missing : FileVal (List Nat))).2
        = (List.drop 2 [5, 6, 7, 8]).flatMap (fun n => [n])) :=
  ⟨by decide, by decide,
   c10_resume_missing_output (fun n => [n]) [5, 6, 7, 8] 2 2 (by decide) (by decide)⟩

/-! ## Claim C5 -/

theorem flatMap_eraseIdx_of_eq_nil {γ δ : Type} (f : γ → List δ) :
    ∀ (l : List γ) (i : Nat) (hi : i < l.length), f (l.get ⟨i, hi⟩) = [] →
      l.flatMap f = (l.eraseIdx i).flatMap f := by
  intro l
  induction l with
  | nil => intro i hi; exact absurd hi (by simp)
  | cons x xs ih =>
    intro i hi hnil
    cases i with
    | zero =>
      simp only [List.get] at hnil
      simp [List.flatMap_cons, hnil]
    | succ j =>
      have hj : j < xs.length := by simpa using hi
      have hget : (x :: xs).get ⟨j + 1, hi⟩ = xs.get ⟨j, hj⟩ := rfl
      rw [hget] at hnil
      simp [List.flatMap_cons, List.eraseIdx_cons_succ, ih j hj hnil]

/-- C5 (confirmed): Partial failure isolation.  If the fetch returns no
content for the i-th city of a batch, that city contributes exactly
zero records and the batch result is precisely what the batch without
that city produces: the records of the other n−1 items all survive, and
no exception aborts the batch or the run (the embedding is total — the
failure is only ever a `none` turned into an empty contribution). -/
theorem c5_partial_failure_isolation (net : String → Option HttpResponse)
    (extract : String → List CourseDetail) (batch : List City) (i : Nat)
    (hi : i < batch.length)
    (hfail : get_html net (batch.get ⟨i, hi⟩).link = none) :
    process_single_city net extract (batch.get ⟨i, hi⟩) = [] ∧
    process_city_batch net extract batch
      = process_city_batch net extract (batch.eraseIdx i) := by
  have hfail2 : get_html net batch[i].link = none := hfail
  have hnil : process_single_city net extract (batch.get ⟨i, hi⟩) = [] := by
    show process_single_city net extract batch[i] = []
    by_cases hl : batch[i].link = ""
    · simp [process_single_city, hl]
    · simp [process_single_city, hl, hfail2]
  exact ⟨hnil, flatMap_eraseIdx_of_eq_nil (process_single_city net extract)
    batch i hi hnil⟩

theorem c5_partial_failure_isolation_witness :
    (0 : Nat) < 2 ∧
    get_html (fun u => if u = "http://good" then some ⟨200, "H"⟩ else none)
      (([⟨"Badtown", "http://bad", "D"⟩,
         ⟨"Goodtown", "http://good", "D"⟩] : List City).get ⟨0, by decide⟩).link
      = none ∧
    (process_single_city (fun u => if u = "http://good" then some ⟨200, "H"⟩ else none)
        (fun _ => [⟨"Course One", "1 Fairway Ln"⟩])
        (([⟨"Badtown", "http://bad", "D"⟩,
           ⟨"Goodtown", "http://good", "D"⟩] : List City).get ⟨0, by decide⟩) = [] ∧
      process_city_batch (fun u => if u = "http://good" then some ⟨200, "H"⟩ else none)
          (fun _ => [⟨"Course One", "1 Fairway Ln"⟩])
          [⟨"Badtown", "http://bad", "D"⟩, ⟨"Goodtown", "http://good", "D"⟩]
        = process_city_batch (fun u => if u = "http://good" then some ⟨200, "H"⟩ else none)
            (fun _ => [⟨"Course One", "1 Fairway Ln"⟩])
            (([⟨"Badtown", "http://bad", "D"⟩,
               ⟨"Goodtown", "http://good", "D"⟩] : List City).eraseIdx 0)) :=
  ⟨by decide, by decide,
   c5_partial_failure_isolation
     (fun u => if u = "http://good" then some ⟨200, "H"⟩ else none)
     (fun _ => [⟨"Course One", "1 Fairway Ln"⟩])
     [⟨"Badtown", "http://bad", "D"⟩, ⟨"Goodtown", "http://good", "D"⟩]
     0 (by decide) (by decide)⟩

/-! ## Claim C2 -/

def courseA : Course :=
  { course_name := "Pebble Beach Golf Links",
    address := "1700 17 Mile Dr, Pebble Beach, CA",
    city := "Pebble Beach", destination := "California",
    city_url := "http://pb" }

def courseB : Course :=
  { course_name := "Spyglass Hill",
    address := "Stevenson Dr, Pebble Beach, CA",
    city := "Pebble Beach", destination := "California",
    city_url := "http://pb" }

/-- Artifacts as left by a previous successful checkpoint: one course
published, checkpoint recording cursor 50 and 1 course. -/
def fsPublished : FS :=
  { output := FileVal.good [courseA],
    ckpt := FileVal.good { last_processed := 50, total_courses := 1 } }

/-- C2 counterexample: the checkpoint block opens the live output file
with `open(output_file, 'w')`, which truncates it in place before the
new contents are written.  A crash after that first primitive step
(`j = 1`) destroys the previously published output artifact — it is no
longer intact — while the old checkpoint file still references the
state it described, so the surviving artifact pair is not mutually
consistent.  This refutes the claimed write-new-then-publish
atomicity. -/
theorem c2_checkpoint_atomicity_counterexample :
    consistentFS fsPublished = true ∧
    crashAfter fsPublished
        (saveCheckpointOps [courseA, courseB] { last_processed := 100, total_courses := 2 }) 1
      = { output := FileVal.corrupt,
          ckpt := FileVal.good { last_processed := 50, total_courses := 1 } } ∧
    consistentFS
        (crashAfter fsPublished
          (saveCheckpointOps [courseA, courseB] { last_processed := 100, total_courses := 2 }) 1)
      = false := by
  exact ⟨rfl, rfl, rfl⟩

/-- C2 (amended): the checkpoint write is an in-place
truncate-then-rewrite of first the output file and then the checkpoint
file — not a write-new-then-publish.  A crash during the write can
corrupt the artifact being rewritten, and a crash between the two file
writes pairs the new output with the stale checkpoint; only a crash
before the first step or after the last leaves the artifacts as a
mutually consistent published pair.  The exact state after `j`
completed primitive steps is as follows. -/
theorem c2_in_place_checkpoint_write (fs : FS) (recs : List Course)
    (ck : CheckpointData) :
    crashAfter fs (saveCheckpointOps recs ck) 0 = fs ∧
    crashAfter fs (saveCheckpointOps recs ck) 1
      = { output := FileVal.corrupt, ckpt := fs.ckpt } ∧
    crashAfter fs (saveCheckpointOps recs ck) 2
      = { output := FileVal.good recs, ckpt := fs.ckpt } ∧
    crashAfter fs (saveCheckpointOps recs ck) 3
      = { output := FileVal.good recs, ckpt := FileVal.corrupt } ∧
    crashAfter fs (saveCheckpointOps recs ck) 4
      = { output := FileVal.good recs, ckpt := FileVal.good ck } :=
  ⟨rfl, rfl, rfl, rfl, rfl⟩

/-! ## Claim C4 -/

/-- C4 counterexample: in the `except Exception` path the controller
(here started from empty artifacts, with an empty accumulator) leaves
the checkpoint file exactly as it was — no `CheckpointState` is
written — and the call returns normally with the record count instead
of re-signaling the failure; and when the final output write itself
fails, the write error propagates in place of the original error,
masking it.  All three behaviours contradict the claim. -/
theorem c4_failed_state_counterexample :
    (onUnexpectedError true
        { output := FileVal.missing, ckpt := FileVal.missing } []).1.ckpt
      = FileVal.missing ∧
    (onUnexpectedError true
        { output := FileVal.missing, ckpt := FileVal.missing } []).2
      = RunOutcome.returned 0 ∧
    (onUnexpectedError true
        { output := FileVal.missing, ckpt := FileVal.missing } []).2
      ≠ RunOutcome.raisedOriginal ∧
    (onUnexpectedError false
        { output := FileVal.missing, ckpt := FileVal.missing } []).2
      = RunOutcome.raisedSecondary := by
  refine ⟨rfl, rfl, ?_, rfl⟩
  decide

/-- C4 (amended): when an unexpected error propagates out of batch
processing, the controller best-effort rewrites the output artifact
with the current accumulator but writes no `CheckpointState`, and then
returns the record count to its caller normally instead of re-signaling
the failure; if that final write itself fails, the new write error
propagates out of the handler in place of the original error (masking
it). -/
theorem c4_error_path_behavior (fs : FS) (acc : List Course) :
    (onUnexpectedError true fs acc).1.output = FileVal.good acc ∧
    (onUnexpectedError true fs acc).1.ckpt = fs.ckpt ∧
    (onUnexpectedError true fs acc).2 = RunOutcome.returned acc.length ∧
    (onUnexpectedError false fs acc).1.ckpt = fs.ckpt ∧
    (onUnexpectedError false fs acc).2 = RunOutcome.raisedSecondary :=
  ⟨rfl, rfl, rfl, rfl, rfl⟩

/-! ## Claim C6 -/

/-- A status outside the forcelist is returned after exactly one
attempt, whatever retry budget remains. -/
theorem runWithRetries_nonretryable (rl code : Nat) (rest : List HttpEvent)
    (hcode : code ∉ status_forcelist) :
    runWithRetries rl (HttpEvent.status code :: rest)
      = (1, FetchOutcome.response code) := by
  cases rl with
  | zero => simp [runWithRetries, retryableEvent, hcode]
  | succ rl => simp [runWithRetries, retryableEvent, hcode]

/-- With `total = rl` retries remaining, at most `rl + 1` HTTP attempts
are made: the initial request plus one per consumed retry. -/
theorem runWithRetries_attempts_le :
    ∀ (events : List HttpEvent) (rl : Nat), (runWithRetries rl events).1 ≤ rl + 1 := by
  intro events
  induction events with
  | nil => intro rl; simp [runWithRetries]
  | cons e rest ih =>
    intro rl
    by_cases hre : retryableEvent e = true
    · cases rl with
      | zero => simp [runWithRetries, hre]
      | succ rl =>
        have h := ih rl
        simp only [runWithRetries, hre, if_true]
        omega
    · have hre2 : retryableEvent e = false := by
        revert hre; cases retryableEvent e <;> simp
      cases e with
      | status code =>
        have hnot : code ∉ status_forcelist := by
          simpa [retryableEvent] using hre2
        rw [runWithRetries_nonretryable rl code rest hnot]
        omega
      | netFail => simp [retryableEvent] at hre2

/-- C6 counterexample: a GET whose first three responses are 503 and
whose fourth is 200 makes four attempts in total — `Retry(total=3)`
bounds the retries, not the attempts — refuting "at most 3 attempts in
total"; and the sleep before the first retry of that GET is 0 time
units, not 1, refuting "exponential backoff starting at 1 time unit
between attempts". -/
theorem c6_attempt_count_counterexample :
    fetchAttempts
        [HttpEvent.status 503, HttpEvent.status 503,
         HttpEvent.status 503, HttpEvent.status 200] = 4 ∧
    3 < fetchAttempts
        [HttpEvent.status 503, HttpEvent.status 503,
         HttpEvent.status 503, HttpEvent.status 200] ∧
    (runWithRetries sessionTotalRetries
        [HttpEvent.status 503, HttpEvent.status 503,
         HttpEvent.status 503, HttpEvent.status 200]).2
      = FetchOutcome.response 200 ∧
    backoffTime 1 1 = 0 ∧
    backoffTime 1 1 ≠ 1 := by
  exact ⟨rfl, by decide, rfl, rfl, by decide⟩

/-- C6 (amended): every HTTP GET makes at most 4 attempts in total (the
initial request plus up to `total = 3` retries).  There is no sleep
before the first retry, and from the second retry on the sleeps grow
exponentially, doubling each time (`backoff_factor=1` gives 0, 2, 4
time units between successive retries — not starting at 1 time unit).
Retries happen only on network-level failures and on the designated
transient statuses 429, 500, 502, 503, 504 (all within 429 ∪ 5xx); any
status outside that list — in particular every other 4xx — is returned
immediately without retry. -/
theorem c6_retry_policy (events rest : List HttpEvent) (rl code : Nat)
    (hcode : status_forcelist.contains code = false) :
    fetchAttempts events ≤ 4 ∧
    runWithRetries rl (HttpEvent.status code :: rest)
      = (1, FetchOutcome.response code) ∧
    (∀ code2, retryableEvent (HttpEvent.status code2) = true →
        code2 = 429 ∨ (500 ≤ code2 ∧ code2 ≤ 504)) ∧
    backoffTime 1 1 = 0 ∧ backoffTime 1 2 = 2 ∧ backoffTime 1 3 = 4 ∧
    (∀ m, backoffTime 1 (m + 3) = 2 * backoffTime 1 (m + 2)) := by
  have hnot : code ∉ status_forcelist := by simpa using hcode
  refine ⟨runWithRetries_attempts_le events sessionTotalRetries, ?_, ?_,
    rfl, rfl, rfl, ?_⟩
  · exact runWithRetries_nonretryable rl code rest hnot
  · intro code2 h
    have hmem : code2 ∈ status_forcelist := by
      simpa [retryableEvent] using h
    simp only [status_forcelist, List.mem_cons, List.not_mem_nil, or_false] at hmem
    omega
  · intro m
    simp [backoffTime, pow_succ]
    ring

theorem c6_retry_policy_witness :
    status_forcelist.contains 404 = false ∧
    (fetchAttempts [] ≤ 4 ∧
      runWithRetries 0 [HttpEvent.status 404]
        = (1, FetchOutcome.response 404) ∧
      (∀ code2, retryableEvent (HttpEvent.status code2) = true →
          code2 = 429 ∨ (500 ≤ code2 ∧ code2 ≤ 504)) ∧
      backoffTime 1 1 = 0 ∧ backoffTime 1 2 = 2 ∧ backoffTime 1 3 = 4 ∧
      (∀ m, backoffTime 1 (m + 3) = 2 * backoffTime 1 (m + 2))) :=
  ⟨by decide, c6_retry_policy [] [] 0 404 (by decide)⟩

/-! ## Claim C7 -/

/-- C7 counterexample: on failure `get_html` returns the bare sentinel
`None` — the value its caller receives is identical for different URLs
and different underlying causes (here a network-level exception on one
URL versus an HTTP 404 on another), so the returned error value carries
neither the URL nor the cause, refuting that part of the claim (the
URL
and cause are only printed, not returned). -/
theorem c7_error_value_counterexample :
    get_html (fun _ => none) "http://site/a" = none ∧
    get_html (fun _ => some { status := 404, text := "not found" })
        "http://site/b" = none ∧
    get_html (fun _ => none) "http://site/a"
      = get_html (fun _ => some { status := 404, text := "not found" })
          "http://site/b" := by
  exact ⟨rfl, rfl, rfl⟩

/-- C7 (amended): for every URL the fetch operation returns a value to
its caller and never lets a `requests` exception escape — the page text
on a response with status outside [400, 600), and otherwise the bare
sentinel `None`, which carries no URL and no cause.  The `none` results
are characterised exactly: a network-level exception or an HTTP status
in [400, 600). -/
theorem c7_fetch_result_contract (net : String → Option HttpResponse)
    (url : String) (r : HttpResponse) (hr : net url = some r)
    (hs : r.status < 400) :
    get_html net url = some r.text ∧
    (∀ (net2 : String → Option HttpResponse) (url2 : String),
      get_html net2 url2 = none ↔
        net2 url2 = none ∨
        ∃ q, net2 url2 = some q ∧ 400 ≤ q.status ∧ q.status < 600) := by
  constructor
  · simp only [get_html, hr]
    rw [if_neg (by omega)]
  · intro net2 url2
    cases h : net2 url2 with
    | none => simp [get_html, h]
    | some q =>
      by_cases hq : 400 ≤ q.status ∧ q.status < 600
      · simp [get_html, h, hq]
      · simp only [get_html, h]
        rw [if_neg hq]
        simp [hq]

theorem c7_fetch_result_contract_witness :
    (fun u => if u = "http://ok" then
        some { status := 200, text := "body" } else none) "http://ok"
      = some ({ status := 200, text := "body" } : HttpResponse) ∧
    ({ status := 200, text := "body" } : HttpResponse).status < 400 ∧
    (get_html (fun u => if u = "http://ok" then
          some { status := 200, text := "body" } else none) "http://ok"
        = some ({ status := 200, text := "body" } : HttpResponse).text ∧
      (∀ (net2 : String → Option HttpResponse) (url2 : String),
        get_html net2 url2 = none ↔
          net2 url2 = none ∨
          ∃ q, net2 url2 = some q ∧ 400 ≤ q.status ∧ q.status < 600)) :=
  ⟨by decide, by decide,
   c7_fetch_result_contract
     (fun u => if u = "http://ok" then some { status := 200, text := "body" } else none)
     "http://ok" { status := 200, text := "body" } (by decide) (by decide)⟩

/-! ## Claim C8 -/

/-- C8 counterexample: input length 90, batch size 30, checkpoint
interval 50.  The run's cursors are 30, 60, 90.  Between cursor 30 and
cursor 60 the run crosses the multiple 50 of the interval, yet the
code's trigger `processed % interval == 0 or batch_end == total` is
false at 60, so no checkpoint is written there: a crossed multiple is
silently skipped when batch boundaries do not land on it, and the run's
only checkpoint happens at the final cursor 90. -/
theorem c8_skipped_multiple_counterexample :
    batchCursors 90 30 0 = [30, 60, 90] ∧
    crossedMultiple 50 30 60 = true ∧
    checkpointTrigger 60 50 90 = false ∧
    checkpointedCursors 90 30 50 0 = [90] := by
  exact ⟨by decide, by decide, rfl, by decide⟩

/-- C8 (amended): a checkpoint is written after a batch exactly when
the new cursor is an exact multiple of `checkpointInterval` or equals
the input length; a multiple of the interval crossed strictly inside a
batch (the cursor passing it without landing on it) triggers no
checkpoint and is skipped. -/
theorem c8_checkpoint_exact_multiples_only (n bs intv c p : Nat)
    (hp : p ∈ batchCursors n bs c) :
    p ∈ checkpointedCursors n bs intv c ↔ (p % intv = 0 ∨ p = n) := by
  unfold checkpointedCursors
  rw [List.mem_filter]
  unfold checkpointTrigger
  simp [hp]

theorem c8_checkpoint_exact_multiples_only_witness :
    60 ∈ batchCursors 90 30 0 ∧
    (60 ∈ checkpointedCursors 90 30 50 0 ↔ (60 % 50 = 0 ∨ 60 = 90)) :=
  ⟨by decide, c8_checkpoint_exact_multiples_only 90 30 50 0 60 (by decide)⟩

/-! ## Claim C9 -/

/-- C9 counterexample: `_clean_address` does not collapse every run of
consecutive commas to a single comma.  The pass
`re.sub(r',\s*,', ',', s)` scans left to right without reconsidering
its own replacement, so of three consecutive commas only the first pair
collapses, and the final whitespace-normalisation pass then renders the
remaining pair as a comma, a space and a comma: `"A,,, B"` cleans to
`"A, , B"`, not to `"A, B"` as collapsing consecutive commas to a
single comma would give. -/
theorem c9_comma_collapse_counterexample :
    clean_address "A,,, B" = "A, , B" ∧ clean_address "A,,, B" ≠ "A, B" := by
  exact ⟨rfl, by decide⟩

/-- C9 (amended): the cleaning step replaces each line-break tag with a
comma separator and normalises whitespace around commas to exactly one
space after each comma, and collapses each *pair* of consecutive commas
to a single comma in one left-to-right pass (runs of three or more
commas are only partially collapsed).  Both of the claim's concrete
examples hold: `"123 Main St<br>Springfield, IL"` cleans to
`"123 Main St, Springfield, IL"` and `"A,, B"` cleans to `"A, B"`; so
do the `<br/>` and `<br />` tag variants and whitespace before a
comma. -/
theorem c9_clean_address_examples :
    clean_address "123 Main St<br>Springfield, IL"
      = "123 Main St, Springfield, IL" ∧
    clean_address "A,, B" = "A, B" ∧
    clean_address "10 Elm<br/>Troy" = "10 Elm, Troy" ∧
    clean_address "<address>1 Oak Rd<br />Ames, IA</address>"
      = "1 Oak Rd, Ames, IA" ∧
    clean_address "A , B" = "A, B" := by
  exact ⟨rfl, rfl, rfl, rfl, rfl⟩

end GolfScraper
